import Mathlib

/-
Verification of the wallet-and-contract interaction layer of the
web3-ethersjs repository (React + ethers v6 hooks).

The TypeScript hooks are shallowly embedded as pure Lean functions:
  * `useWeb3.ts`   — wallet session state, network registry, switchNetwork
  * `useVault.ts`  — vault reads (getUserBalance / getAllBalances) and the
                     two-phase deposit / single-phase withdraw protocols
  * `useERC20.ts`  — balance fetching, display formatting, reported decimals
  * `App.tsx`      — transfer with gas estimation (handleTransfer)

Suspending provider calls are modelled by environment records that fix the
outcome of each external call; each embedded operation returns its result
together with the ordered trace of provider/contract calls it issued.
JavaScript `x || d` on numbers (which treats 0 as falsy) is modelled by
`jsOrNat`, and `accounts[0] || null` by `jsHeadOrNull`.
-/

namespace Web3

/-! ### Chain registry (useWeb3.ts, `SUPPORTED_NETWORKS`, lines 12-48) -/

structure NetworkInfo where
  chainId : Nat
  name : String
  nativeCurrency : String
  explorerUrl : String
  isSupported : Bool
deriving DecidableEq

/-- The static chain table of useWeb3.ts (keys 1, 11155111, 5, 8453, 84532). -/
def SUPPORTED_NETWORKS (chainId : Nat) : Option NetworkInfo :=
  if chainId = 1 then
    some ⟨1, "Ethereum Mainnet", "ETH", "https://etherscan.io", true⟩
  else if chainId = 11155111 then
    some ⟨11155111, "Sepolia Testnet", "ETH", "https://sepolia.etherscan.io", true⟩
  else if chainId = 5 then
    some ⟨5, "Goerli Testnet", "ETH", "https://goerli.etherscan.io", false⟩
  else if chainId = 8453 then
    some ⟨8453, "Base Mainnet", "ETH", "https://basescan.org", false⟩
  else if chainId = 84532 then
    some ⟨84532, "Base Sepolia", "ETH", "https://base-sepolia.blockscout.com", false⟩
  else none

/-- `updateNetworkInfo` / `handleChainChanged` fallback descriptor
(useWeb3.ts lines 88-94 and 115-121). -/
def networkInfoFor (chainId : Nat) : NetworkInfo :=
  (SUPPORTED_NETWORKS chainId).getD
    ⟨chainId, "Chain " ++ toString chainId, "ETH", "#", false⟩

/-- JavaScript `x || d` on a possibly-absent number: both `undefined` and the
falsy value `0` fall back to the default. -/
def jsOrNat (x : Option Nat) (d : Nat) : Nat :=
  match x with
  | none => d
  | some v => if v = 0 then d else v

/-- JavaScript `accounts[0] || null` (useWeb3.ts line 102): the head of the
list, with both a missing element and the empty string mapped to null. -/
def jsHeadOrNull (accounts : List String) : Option String :=
  match accounts.head? with
  | none => none
  | some a => if a = "" then none else some a

/-! ### Wallet session state (useWeb3.ts, `useWeb3`) -/

structure WalletState where
  signer : Bool
  account : Option String
  chainId : Option Nat
  network : Option NetworkInfo
deriving DecidableEq

/-- State before any event: no signer, no account, no chain. -/
def initialWalletState : WalletState := ⟨false, none, none, none⟩

/-- `isConnected: !!account` (useWeb3.ts line 229). -/
def isConnected (s : WalletState) : Bool := s.account.isSome

/-- `handleAccountsChanged` (useWeb3.ts lines 100-103): only
`setAccount(accounts[0] || null)` runs; no other field is touched. -/
def handleAccountsChanged (accounts : List String) (s : WalletState) : WalletState :=
  { s with account := jsHeadOrNull accounts }

/-- `handleChainChanged` (useWeb3.ts lines 105-123): sets chainId and
recomputes the network descriptor. -/
def handleChainChanged (newChainId : Nat) (s : WalletState) : WalletState :=
  { s with chainId := some newChainId, network := some (networkInfoFor newChainId) }

/-- Successful `connectWallet` (useWeb3.ts lines 151-166): sets the signer,
the first returned account, and the network info for the reported chain. -/
def connectWalletOk (accounts : List String) (netChainId : Nat) (s : WalletState) :
    WalletState :=
  { s with signer := true, account := accounts.head?,
           chainId := some netChainId, network := some (networkInfoFor netChainId) }

/-- `disconnectWallet` (useWeb3.ts lines 168-173): clears every field. -/
def disconnectWallet (s : WalletState) : WalletState :=
  { s with signer := false, account := none, chainId := none, network := none }

/-- One session-state transition of useWeb3.ts. -/
inductive WalletStep : WalletState → WalletState → Prop where
  | connectOk (accounts : List String) (netChainId : Nat) (s : WalletState) :
      WalletStep s (connectWalletOk accounts netChainId s)
  | disconnect (s : WalletState) :
      WalletStep s (disconnectWallet s)
  | accountsChanged (accounts : List String) (s : WalletState) :
      WalletStep s (handleAccountsChanged accounts s)
  | chainChanged (newChainId : Nat) (s : WalletState) :
      WalletStep s (handleChainChanged newChainId s)

/-- Session states reachable from the initial state by provider events. -/
inductive WalletReachable : WalletState → Prop where
  | init : WalletReachable initialWalletState
  | step {s t : WalletState} : WalletReachable s → WalletStep s t → WalletReachable t

/-! ### switchNetwork (useWeb3.ts lines 175-221) -/

/-- Provider requests that `switchNetwork` can issue, with their target. -/
inductive ProviderCall where
  | switchChain (chainId : Nat)
  | addChain (chainId : Nat)
deriving DecidableEq

/-- Errors `switchNetwork` can throw. `notConfigured` is the
"Network X is not configured" error (the spec's `UnsupportedNetwork`);
`rethrown` re-raises a provider error whose code is not 4902. -/
inductive SwitchErr where
  | walletNotConnected
  | notConfigured (chainId : Nat)
  | rethrown (code : Nat)
  | addChainFailed
deriving DecidableEq

/-- Outcomes of the provider calls `switchNetwork` may make:
`switchResult = none` means `wallet_switchEthereumChain` succeeds, and
`switchResult = some code` means it throws an error carrying `code`. -/
structure SwitchEnv where
  hasProvider : Bool
  switchResult : Option Nat
  addChainOk : Bool

/-- `getRpcUrls` (useWeb3.ts lines 212-221). -/
def getRpcUrls (chainId : Nat) : List String :=
  if chainId = 1 then ["https://mainnet.infura.io/v3/YOUR_INFURA_KEY"]
  else if chainId = 11155111 then ["https://sepolia.infura.io/v3/YOUR_INFURA_KEY"]
  else if chainId = 5 then ["https://goerli.infura.io/v3/YOUR_INFURA_KEY"]
  else if chainId = 8453 then ["https://mainnet.base.org"]
  else if chainId = 84532 then ["https://sepolia.base.org"]
  else ["https://ethereum.publicnode.com"]

/-- `switchNetwork` (useWeb3.ts lines 175-210): try the switch; on error code
4902 look up the registry and, only if a descriptor exists, issue
`wallet_addEthereumChain`; on any other code rethrow. Returns the result and
the ordered trace of provider calls issued. -/
def switchNetwork (env : SwitchEnv) (targetChainId : Nat) :
    Except SwitchErr Unit × List ProviderCall :=
  if !env.hasProvider then (.error .walletNotConnected, [])
  else
    match env.switchResult with
    | none => (.ok (), [.switchChain targetChainId])
    | some code =>
        if code = 4902 then
          match SUPPORTED_NETWORKS targetChainId with
          | none => (.error (.notConfigured targetChainId), [.switchChain targetChainId])
          | some _ =>
              if env.addChainOk then
                (.ok (), [.switchChain targetChainId, .addChain targetChainId])
              else
                (.error .addChainFailed,
                 [.switchChain targetChainId, .addChain targetChainId])
        else (.error (.rethrown code), [.switchChain targetChainId])

/-! ### parseUnits (ethers v6) and the vault amount parsing (useVault.ts) -/

/-- Decimal digit run parsed to a number; `none` on an empty run or any
non-digit character. -/
def digitsToNat (cs : List Char) : Option Nat :=
  if cs.isEmpty then none
  else
    cs.foldl
      (fun acc c =>
        match acc with
        | none => none
        | some n => if c.isDigit then some (n * 10 + (c.toNat - 48)) else none)
      (some 0)

/-- ethers `parseUnits(value, decimals)` for the nonnegative decimal strings
the UI supplies: `whole.frac` becomes `whole·10^decimals + frac·10^(decimals
- |frac|)`; a fraction longer than `decimals`, or a malformed string, fails
(ethers throws there). -/
def parseUnits (value : String) (decimals : Nat) : Option Nat :=
  match value.data.splitOn '.' with
  | [whole] => (digitsToNat whole).map (fun w => w * 10 ^ decimals)
  | [whole, frac] =>
      if frac.length ≤ decimals then
        match digitsToNat whole, digitsToNat frac with
        | some w, some f => some (w * 10 ^ decimals + f * 10 ^ (decimals - frac.length))
        | _, _ => none
      else none
  | _ => none

/-- Amount conversion in `deposit` (useVault.ts line 347):
`parseUnits(amount, 18)` — the decimals argument is the hardcoded literal 18,
regardless of the target token. -/
def depositAmountRaw (amount : String) : Option Nat := parseUnits amount 18

/-- Amount conversion in `withdraw` (useVault.ts line 379): the same
hardcoded `parseUnits(amount, 18)`. -/
def withdrawAmountRaw (amount : String) : Option Nat := parseUnits amount 18

/-! ### Vault reads (useVault.ts, `getUserBalance` / `getAllBalances`) -/

/-- `getUserBalance` (useVault.ts lines 281-293): returns 0 when the vault
contract handle or the account is missing, and 0 when the query itself
fails; the guard booleans model `vaultContract` / `account` being non-null
and `query` models the outcome of `vaultContract.getUserBalance`. -/
def getUserBalance (hasVault hasAccount : Bool) (query : Except Unit Nat) : Nat :=
  if !hasVault || !hasAccount then 0
  else
    match query with
    | .ok v => v
    | .error _ => 0

structure VaultBalance where
  tokenAddress : String
  balanceRaw : Nat
  balanceFormatted : String
deriving DecidableEq

/-- `Promise.all`: succeeds with all values when every element succeeds,
and rejects with the first rejection otherwise. -/
def promiseAll {ε α : Type} : List (Except ε α) → Except ε (List α)
  | [] => .ok []
  | x :: xs =>
      match x with
      | .error e => .error e
      | .ok a =>
          match promiseAll xs with
          | .error e => .error e
          | .ok rest => .ok (a :: rest)

/-- `getAllBalances` (useVault.ts lines 296-322): `Promise.all` over the
per-token queries inside one try/catch; the catch returns the empty list.
`query t` models `vaultContract.getUserBalance(account, t)`. -/
def getAllBalances (hasVault hasAccount : Bool) (query : String → Except Unit Nat)
    (tokenAddresses : List String) : List VaultBalance :=
  if !hasVault || !hasAccount then []
  else
    match promiseAll (tokenAddresses.map
        (fun t => (query t).map (fun raw => VaultBalance.mk t raw (toString raw)))) with
    | .ok balances => balances
    | .error _ => []

/-! ### deposit (useVault.ts lines 325-361) -/

/-- Ways an individual transaction step can fail. -/
inductive TxErr where
  | userRejected
  | reverted
deriving DecidableEq

/-- Contract calls `deposit` can issue, in order. -/
inductive VaultCall where
  | approveCall
  | vaultDepositCall
deriving DecidableEq

/-- Errors `deposit` can throw. -/
inductive DepositErr where
  | walletNotConnected
  | vaultPaused
  | invalidAmount
  | txFailed (e : TxErr)
deriving DecidableEq

/-- Outcomes of the four awaited steps of `deposit`: the approve submission,
its confirmation (`approveTx.wait()`), the vault deposit submission, and its
confirmation (`depositTx.wait()`). -/
structure DepositEnv where
  hasSigner : Bool
  hasVault : Bool
  hasAccount : Bool
  isPaused : Bool
  approveSubmit : Except TxErr Unit
  approveWait : Except TxErr Unit
  depositSubmit : Except TxErr Unit
  depositWait : Except TxErr Unit

/-- `deposit` (useVault.ts lines 325-361): guard checks, amount parsing,
then approve → await → vault deposit → await, aborting at the first failing
step. Returns the result and the ordered trace of contract calls issued. -/
def depositRun (env : DepositEnv) (amount : String) :
    Except DepositErr Unit × List VaultCall :=
  if !env.hasSigner || !env.hasVault || !env.hasAccount then
    (.error .walletNotConnected, [])
  else if env.isPaused then (.error .vaultPaused, [])
  else
    match depositAmountRaw amount with
    | none => (.error .invalidAmount, [])
    | some _ =>
        match env.approveSubmit with
        | .error e => (.error (.txFailed e), [.approveCall])
        | .ok _ =>
            match env.approveWait with
            | .error e => (.error (.txFailed e), [.approveCall])
            | .ok _ =>
                match env.depositSubmit with
                | .error e => (.error (.txFailed e), [.approveCall, .vaultDepositCall])
                | .ok _ =>
                    match env.depositWait with
                    | .error e =>
                        (.error (.txFailed e), [.approveCall, .vaultDepositCall])
                    | .ok _ => (.ok (), [.approveCall, .vaultDepositCall])

/-! ### Balance tracker completions (useERC20.ts, `useERC20Balance`) -/

/-- The stored `balanceRaw` after a run of concurrent `fetchBalance` calls.
Each completion is `(issueIndex, value)`, listed in the real-time order in
which the fetches completed. Every completed fetch runs
`setBalanceRaw(balanceResult)` unconditionally (useERC20.ts line 109); there
is no sequence counter or request-generation guard, so each completion
simply overwrites the stored value. -/
def trackerRun (start : Nat) (completions : List (Nat × Nat)) : Nat :=
  completions.foldl (fun _ c => c.2) start

/-- The `decimals` field returned by `useERC20Balance`
(useERC20.ts line 166): `tokenInfo?.decimals || 18`. -/
def reportedDecimals (tokenDecimals : Option Nat) : Nat :=
  jsOrNat tokenDecimals 18

/-! ### handleTransfer with gas estimation (App.tsx lines 42-118) -/

/-- Provider error codes distinguished by the catch block of
`handleTransfer` (App.tsx lines 104-114). -/
inductive EthErr where
  | insufficientFunds
  | actionRejected
  | otherErr
deriving DecidableEq

/-- Calls `handleTransfer` can push to the provider: the gas-estimation
simulation, and the real submission with its explicit gas limit. -/
inductive AppCall where
  | estimateGasCall
  | transferSubmitCall (gasLimit : Nat)
deriving DecidableEq

/-- Outcomes of the external calls `handleTransfer` awaits. -/
structure TransferEnv where
  hasEthereum : Bool
  tokenDecimals : Option Nat
  estimateGasResult : Except EthErr Nat
  submitResult : Except EthErr String
  waitStatus : Except EthErr Nat

/-- What the user sees after `handleTransfer`. -/
inductive TransferOutcome where
  | success (txHash : String)
  | failure (message : String)
  | noProvider
deriving DecidableEq

/-- The error banner chosen by the catch block (App.tsx lines 108-114). -/
def errorBanner : EthErr → String
  | .insufficientFunds => "You don't have enough ETH for gas fees."
  | .actionRejected => "Transaction rejected by user."
  | .otherErr => "Gas estimation failed. The transaction might revert."

/-- `handleTransfer` (App.tsx lines 42-118): estimate gas first; on success
compute `gasLimit = estimatedGas * 120 / 100` and submit the transfer with
it; await the receipt and require status 1. Any thrown error lands in the
single catch block. Returns the outcome and the ordered call trace. -/
def handleTransfer (env : TransferEnv) : TransferOutcome × List AppCall :=
  if !env.hasEthereum then (.noProvider, [])
  else
    match env.estimateGasResult with
    | .error e => (.failure (errorBanner e), [.estimateGasCall])
    | .ok estimatedGas =>
        match env.submitResult with
        | .error e =>
            (.failure (errorBanner e),
             [.estimateGasCall, .transferSubmitCall (estimatedGas * 120 / 100)])
        | .ok txHash =>
            match env.waitStatus with
            | .error e =>
                (.failure (errorBanner e),
                 [.estimateGasCall, .transferSubmitCall (estimatedGas * 120 / 100)])
            | .ok status =>
                if status = 1 then
                  (.success txHash,
                   [.estimateGasCall, .transferSubmitCall (estimatedGas * 120 / 100)])
                else
                  (.failure (errorBanner .otherErr),
                   [.estimateGasCall, .transferSubmitCall (estimatedGas * 120 / 100)])

/-! ### Display formatting (useERC20.ts lines 142-160)

`balanceFormatted = formatUnits(balanceRaw, decimals)` followed by
`num = parseFloat(balanceFormatted)` is modelled by the exact rational
`raw / 10^decimals`, carried as the pair `(raw, decimals)`; the float
comparisons of `balanceDisplay` become the integer comparisons
`raw = 0`, `raw·10^4 < 10^decimals` and `raw < 10^decimals`. -/

/-- The character of a single decimal digit. -/
def digitChar : Nat → Char
  | 0 => '0'
  | 1 => '1'
  | 2 => '2'
  | 3 => '3'
  | 4 => '4'
  | 5 => '5'
  | 6 => '6'
  | 7 => '7'
  | 8 => '8'
  | 9 => '9'
  | _ => '9'

/-- Big-endian decimal digits of `n`, with explicit fuel so that the
definition is structurally recursive. -/
def natDigitsAux : Nat → Nat → List Char
  | 0, _ => []
  | fuel + 1, n => if n = 0 then [] else natDigitsAux fuel (n / 10) ++ [digitChar (n % 10)]

/-- Big-endian decimal digit characters of `n` (at least one digit). -/
def natDigits (n : Nat) : List Char :=
  if n = 0 then ['0'] else natDigitsAux (n + 1) n

/-- Round-half-up of the rational `a / b` to an integer, as JavaScript
number formatting does for nonnegative values. -/
def roundHalfUp (a b : Nat) : Nat := (2 * a + b) / (2 * b)

/-- The value `num.toFixed(4)` rounds to, scaled by `10^4`. -/
def toFixed4Scaled (raw decimals : Nat) : Nat :=
  roundHalfUp (raw * 10 ^ 4) (10 ^ decimals)

/-- Exactly four fraction digits, zero-padded. -/
def frac4 (f : Nat) : List Char :=
  [digitChar (f / 1000 % 10), digitChar (f / 100 % 10),
   digitChar (f / 10 % 10), digitChar (f % 10)]

/-- JavaScript `num.toFixed(4)` for the nonnegative value `raw/10^decimals`:
round half-up at four fraction digits and print `int.frac` with the fraction
zero-padded to exactly four digits. -/
def toFixed4 (raw decimals : Nat) : String :=
  ⟨natDigits (toFixed4Scaled raw decimals / 10 ^ 4) ++
    '.' :: frac4 (toFixed4Scaled raw decimals % 10 ^ 4)⟩

/-- Six fraction digits, zero-padded. -/
def frac6 (f : Nat) : List Char :=
  [digitChar (f / 100000 % 10), digitChar (f / 10000 % 10), digitChar (f / 1000 % 10),
   digitChar (f / 100 % 10), digitChar (f / 10 % 10), digitChar (f % 10)]

/-- Drop trailing '0' characters (a locale format omits them). -/
def trimTrailingZeros (l : List Char) : List Char :=
  (l.reverse.dropWhile (fun c => c == '0')).reverse

/-- Insert ',' after every three characters counted from the front, with
explicit fuel; applied to the reversed digit list this realizes grouping in
threes from the right. -/
def group3Aux : Nat → List Char → List Char
  | 0, l => l
  | fuel + 1, l =>
      if l.length ≤ 3 then l else l.take 3 ++ ',' :: group3Aux fuel (l.drop 3)

/-- en-US thousands grouping of a big-endian digit list. -/
def groupDigits (ds : List Char) : List Char :=
  (group3Aux ds.length ds.reverse).reverse

/-- The value `num.toLocaleString` rounds to, scaled by `10^6`. -/
def localeScaled (raw decimals : Nat) : Nat :=
  roundHalfUp (raw * 10 ^ 6) (10 ^ decimals)

/-- JavaScript `num.toLocaleString("en-US", maximumFractionDigits 6)` for
the nonnegative value `raw/10^decimals`: round half-up at six fraction
digits, group the integer part in threes with ',', drop trailing fraction
zeros, and omit the decimal point when the fraction vanishes. -/
def toLocaleString6 (raw decimals : Nat) : String :=
  if localeScaled raw decimals % 10 ^ 6 = 0 then
    ⟨groupDigits (natDigits (localeScaled raw decimals / 10 ^ 6))⟩
  else
    ⟨groupDigits (natDigits (localeScaled raw decimals / 10 ^ 6)) ++
      '.' :: trimTrailingZeros (frac6 (localeScaled raw decimals % 10 ^ 6))⟩

/-- `balanceDisplay` (useERC20.ts lines 153-160): the display cascade over
the exact value `raw / 10^decimals`; `tokenLoaded` models `tokenInfo` being
non-null. -/
def balanceDisplay (tokenLoaded : Bool) (raw decimals : Nat) : String :=
  if !tokenLoaded then "0.00"
  else if raw = 0 then "0.00"
  else if raw * 10 ^ 4 < 10 ^ decimals then "< 0.0001"
  else if raw < 10 ^ decimals then toFixed4 raw decimals
  else toLocaleString6 raw decimals

/-- Number of characters after the first '.' of `s` (0 when there is none). -/
def fracDigitCount (s : String) : Nat :=
  (s.data.dropWhile (fun c => c != '.')).length - 1

/-! ### Helper lemmas -/

theorem promiseAll_error_of_mem {ε α β : Type} (f : β → Except ε α) (l : List β)
    (t : β) (ht : t ∈ l) (e : ε) (hfail : f t = .error e) :
    ∃ e', promiseAll (l.map f) = .error e' := by
  induction l with
  | nil => cases ht
  | cons x xs ih =>
      rcases List.mem_cons.mp ht with h | h
      · subst h
        exact ⟨e, by simp [promiseAll, hfail]⟩
      · cases hx : f x with
        | error e' => exact ⟨e', by simp [promiseAll, hx]⟩
        | ok a =>
            rcases ih h with ⟨e', he'⟩
            exact ⟨e', by simp [promiseAll, hx, he']⟩

/-! ### Claim theorems -/

/-- C1: the claim says deposit/withdraw convert the user amount with the
token's actual fetched decimals. The code hardcodes 18
(`parseUnits(amount, 18)`, useVault.ts lines 347 and 379, each annotated
"Adjust decimals as needed"): for a 6-decimals token such as USDC, the
amount "10" becomes 10·10^18 instead of the 10·10^6 the claim requires. -/
theorem deposit_withdraw_amount_hardcode_18 :
    depositAmountRaw "10" = some (10 * 10 ^ 18) ∧
    withdrawAmountRaw "10" = some (10 * 10 ^ 18) ∧
    parseUnits "10" 6 = some (10 * 10 ^ 6) ∧
    10 * 10 ^ 18 ≠ 10 * 10 ^ 6 :=
  ⟨rfl, rfl, rfl, by norm_num⟩

/-- C2 counterexample: connect with one account and then deliver an
`accountsChanged` event with the empty list; the reachable state that
results still holds the signer while the account is gone, refuting
`hasSigner ⇒ account is present` and "no signer retained". -/
theorem hasSigner_invariant_counterexample :
    ∃ s : WalletState, WalletReachable s ∧ s.signer = true ∧ s.account = none ∧
      isConnected s = false :=
  ⟨handleAccountsChanged [] (connectWalletOk ["0xAAA"] 1 initialWalletState),
   .step (.step .init (.connectOk ["0xAAA"] 1 initialWalletState))
     (.accountsChanged [] (connectWalletOk ["0xAAA"] 1 initialWalletState)),
   rfl, rfl, rfl⟩

/-- C2 (amended): after an `accountsChanged` event with an empty account
list, the account is cleared — so the session reports not connected — but
the signer handle and the chain fields are retained unchanged; the
invariant `hasSigner ⇒ account is present` therefore does not hold in all
reachable states. -/
theorem accountsChanged_empty_clears_account_not_signer (s : WalletState) :
    (handleAccountsChanged [] s).account = none ∧
    isConnected (handleAccountsChanged [] s) = false ∧
    (handleAccountsChanged [] s).signer = s.signer ∧
    (handleAccountsChanged [] s).chainId = s.chainId ∧
    (handleAccountsChanged [] s).network = s.network :=
  ⟨rfl, rfl, rfl, rfl, rfl⟩

/-- C3: when the provider rejects the switch with the "unrecognized chain"
code 4902 and the chain registry has no descriptor for the target,
`switchNetwork` fails with the "Network X is not configured" error
(`UnsupportedNetwork`) and never issues `wallet_addEthereumChain`. -/
theorem switchNetwork_unsupported (env : SwitchEnv) (targetChainId : Nat)
    (hp : env.hasProvider = true)
    (hcode : env.switchResult = some 4902)
    (hreg : SUPPORTED_NETWORKS targetChainId = none) :
    (switchNetwork env targetChainId).1 = .error (.notConfigured targetChainId) ∧
    ∀ c, ProviderCall.addChain c ∉ (switchNetwork env targetChainId).2 := by
  simp [switchNetwork, hp, hcode, hreg]

theorem switchNetwork_unsupported_witness :
    (switchNetwork ⟨true, some 4902, true⟩ 999999).1 =
      .error (.notConfigured 999999) ∧
    ∀ c, ProviderCall.addChain c ∉ (switchNetwork ⟨true, some 4902, true⟩ 999999).2 :=
  switchNetwork_unsupported ⟨true, some 4902, true⟩ 999999 rfl rfl rfl

/-- Per-token query used by the C4 counterexample: token "A" succeeds with
raw balance 5, every other token's query fails. -/
def queryOneFails (t : String) : Except Unit Nat :=
  if t = "A" then .ok 5 else .error ()

/-- C4 counterexample: with two tokens of which only "B" fails,
`getAllBalances` returns the empty list — the successful token "A" is not
reported, refuting "the result still reports the other tokens' balances". -/
theorem getAllBalances_single_failure_drops_all :
    queryOneFails "A" = .ok 5 ∧ queryOneFails "B" = .error () ∧
    getAllBalances true true queryOneFails ["A", "B"] = [] ∧
    ¬ ∃ vb ∈ getAllBalances true true queryOneFails ["A", "B"],
        vb.tokenAddress = "A" := by
  refine ⟨rfl, rfl, by decide, ?_⟩
  intro h
  rcases h with ⟨vb, hmem, _⟩
  rw [show getAllBalances true true queryOneFails ["A", "B"] = [] from by decide] at hmem
  cases hmem

/-- C4 (amended): a failing per-token query never raises past the batch
boundary (`getAllBalances` always returns a list), but it empties the whole
batch: if any token in the list fails, the result is the empty list, so the
other tokens' balances are dropped along with the failed one. -/
theorem getAllBalances_failure_empties_batch (hasVault hasAccount : Bool)
    (query : String → Except Unit Nat) (tokens : List String) (t : String)
    (ht : t ∈ tokens) (hfail : query t = .error ()) :
    getAllBalances hasVault hasAccount query tokens = [] := by
  unfold getAllBalances
  split
  · rfl
  · obtain ⟨e', he'⟩ := promiseAll_error_of_mem
      (fun t => (query t).map (fun raw => VaultBalance.mk t raw (toString raw)))
      tokens t ht () (by simp [hfail, Except.map])
    rw [he']

theorem getAllBalances_failure_empties_batch_witness :
    getAllBalances true true (fun _ => .error ()) ["0xUSDC", "0xDAI"] = [] :=
  getAllBalances_failure_empties_batch true true (fun _ => .error ())
    ["0xUSDC", "0xDAI"] "0xUSDC" (by decide) rfl

/-- C5 counterexample: the fetch issued first (index 0, value 5) completes
after the fetch issued later (index 1, value 7). The tracker ends at 5, the
stale earlier request's value, not the fresher 7 — the stale request does
overwrite the fresher result. -/
theorem stale_fetch_overwrites_fresh :
    trackerRun 0 [(1, 7), (0, 5)] = 5 ∧ trackerRun 0 [(1, 7), (0, 5)] ≠ 7 := by
  decide

/-- C5 (amended): `useERC20Balance` has no per-key sequence counter or
request-generation guard; whichever fetch completes last in real time wins,
regardless of issue order, so a slow stale earlier request does overwrite a
fresher later-issued result. -/
theorem trackerRun_last_completion_wins (start : Nat) (pre : List (Nat × Nat))
    (c : Nat × Nat) : trackerRun start (pre ++ [c]) = c.2 := by
  simp [trackerRun, List.foldl_append]

/-- C6: the approve call is submitted and its confirmation awaited before
the vault's deposit entry point is ever called — the deposit call appears in
a trace only after a fully successful approve phase, and only in second
position — and `deposit` reports success only when all four awaited steps
(approve, its wait, deposit, its wait) completed. -/
theorem deposit_phase_ordering (env : DepositEnv) (amount : String) :
    (¬(env.approveSubmit = .ok () ∧ env.approveWait = .ok ()) →
      VaultCall.vaultDepositCall ∉ (depositRun env amount).2) ∧
    ((depositRun env amount).1 = .ok () →
      env.approveSubmit = .ok () ∧ env.approveWait = .ok () ∧
      env.depositSubmit = .ok () ∧ env.depositWait = .ok () ∧
      (depositRun env amount).2 = [.approveCall, .vaultDepositCall]) := by
  by_cases hready : (!env.hasSigner || !env.hasVault || !env.hasAccount) = true
  · refine ⟨fun _ => ?_, fun hok => ?_⟩
    · simp [depositRun, hready]
    · simp [depositRun, hready] at hok
  · by_cases hpaused : env.isPaused = true
    · refine ⟨fun _ => ?_, fun hok => ?_⟩
      · simp [depositRun, hready, hpaused]
      · simp [depositRun, hready, hpaused] at hok
    · rcases hparse : depositAmountRaw amount with _ | n
      · refine ⟨fun _ => ?_, fun hok => ?_⟩
        · simp [depositRun, hready, hpaused, hparse]
        · simp [depositRun, hready, hpaused, hparse] at hok
      · rcases ha1 : env.approveSubmit with e1 | u1
        · refine ⟨fun _ => ?_, fun hok => ?_⟩
          · simp [depositRun, hready, hpaused, hparse, ha1]
          · simp [depositRun, hready, hpaused, hparse, ha1] at hok
        · cases u1
          rcases ha2 : env.approveWait with e2 | u2
          · refine ⟨fun _ => ?_, fun hok => ?_⟩
            · simp [depositRun, hready, hpaused, hparse, ha1, ha2]
            · simp [depositRun, hready, hpaused, hparse, ha1, ha2] at hok
          · cases u2
            refine ⟨fun hno => absurd ⟨rfl, rfl⟩ hno, fun hok => ?_⟩
            rcases hd1 : env.depositSubmit with e3 | u3
            · simp [depositRun, hready, hpaused, hparse, ha1, ha2, hd1] at hok
            · cases u3
              rcases hd2 : env.depositWait with e4 | u4
              · simp [depositRun, hready, hpaused, hparse, ha1, ha2, hd1, hd2] at hok
              · cases u4
                exact ⟨rfl, rfl, rfl, rfl, by
                  simp [depositRun, hready, hpaused, hparse, ha1, ha2, hd1, hd2]⟩

theorem deposit_phase_ordering_witness :
    VaultCall.vaultDepositCall ∉
      (depositRun
        ⟨true, true, true, false, .error .userRejected, .ok (), .ok (), .ok ()⟩
        "10").2 :=
  (deposit_phase_ordering
      ⟨true, true, true, false, .error .userRejected, .ok (), .ok (), .ok ()⟩ "10").1
    (by simp)

/-- C7: if the gas-estimation simulation fails, `handleTransfer` fails fast
with the catch-block banner and the submission call never reaches the
provider — no blind submission is attempted with any gas limit. -/
theorem estimation_failure_blocks_submission (env : TransferEnv) (e : EthErr)
    (hp : env.hasEthereum = true) (hest : env.estimateGasResult = .error e) :
    (handleTransfer env).1 = .failure (errorBanner e) ∧
    ∀ g, AppCall.transferSubmitCall g ∉ (handleTransfer env).2 := by
  simp [handleTransfer, hp, hest]

theorem estimation_failure_blocks_submission_witness :
    (handleTransfer ⟨true, some 6, .error .otherErr, .ok "0xhash", .ok 1⟩).1 =
      .failure (errorBanner .otherErr) ∧
    ∀ g, AppCall.transferSubmitCall g ∉
      (handleTransfer ⟨true, some 6, .error .otherErr, .ok "0xhash", .ok 1⟩).2 :=
  estimation_failure_blocks_submission
    ⟨true, some 6, .error .otherErr, .ok "0xhash", .ok 1⟩ .otherErr rfl rfl

/-- C9: while the vault contract handle or the wallet account is missing,
`getUserBalance` returns zero and `getAllBalances` returns the empty list,
and neither raises (both are total and short-circuit before any query). -/
theorem vault_reads_default_when_not_ready (hasVault hasAccount : Bool)
    (q : Except Unit Nat) (qs : String → Except Unit Nat) (tokens : List String)
    (h : hasVault = false ∨ hasAccount = false) :
    getUserBalance hasVault hasAccount q = 0 ∧
    getAllBalances hasVault hasAccount qs tokens = [] := by
  rcases h with h | h <;> subst h <;> simp [getUserBalance, getAllBalances]

theorem vault_reads_default_when_not_ready_witness :
    getUserBalance false true (.ok 7) = 0 ∧
    getAllBalances false true (fun _ => .ok 7) ["0xUSDC"] = [] :=
  vault_reads_default_when_not_ready false true (.ok 7) (fun _ => .ok 7) ["0xUSDC"]
    (.inl rfl)

/-- C10: the `decimals` field reported by `useERC20Balance` is the fetched
decimals only when that value is nonzero; when the token metadata is not
yet loaded, or the fetched decimals are 0, it is 18 (JavaScript
`tokenInfo?.decimals || 18` treats 0 as falsy). -/
theorem reportedDecimals_cases (d : Nat) :
    reportedDecimals none = 18 ∧
    reportedDecimals (some 0) = 18 ∧
    (d ≠ 0 → reportedDecimals (some d) = d) := by
  refine ⟨rfl, rfl, fun h => ?_⟩
  simp [reportedDecimals, jsOrNat, h]

theorem reportedDecimals_cases_witness :
    reportedDecimals none = 18 ∧ reportedDecimals (some 0) = 18 ∧
    reportedDecimals (some 6) = 6 :=
  ⟨(reportedDecimals_cases 6).1, (reportedDecimals_cases 6).2.1,
   (reportedDecimals_cases 6).2.2 (by decide)⟩

/-! ### Lemmas about the display formatting -/

theorem digitChar_ne_dot (d : Nat) : (digitChar d != '.') = true := by
  unfold digitChar
  split <;> decide

theorem natDigitsAux_ne_dot (fuel : Nat) :
    ∀ (n : Nat), ∀ c ∈ natDigitsAux fuel n, (c != '.') = true := by
  induction fuel with
  | zero => intro n c hc; simp [natDigitsAux] at hc
  | succ fuel ih =>
      intro n c hc
      unfold natDigitsAux at hc
      by_cases hn : n = 0
      · simp [hn] at hc
      · simp [hn] at hc
        rcases hc with hc | hc
        · exact ih (n / 10) c hc
        · subst hc; exact digitChar_ne_dot _

theorem natDigits_ne_dot (n : Nat) : ∀ c ∈ natDigits n, (c != '.') = true := by
  intro c hc
  unfold natDigits at hc
  by_cases hn : n = 0
  · simp [hn] at hc; subst hc; decide
  · simp [hn] at hc; exact natDigitsAux_ne_dot _ _ c hc

theorem group3Aux_mem (fuel : Nat) :
    ∀ (l : List Char), ∀ c ∈ group3Aux fuel l, c ∈ l ∨ c = ',' := by
  induction fuel with
  | zero => intro l c hc; exact .inl hc
  | succ fuel ih =>
      intro l c hc
      unfold group3Aux at hc
      by_cases h3 : l.length ≤ 3
      · simp [h3] at hc; exact .inl hc
      · simp [h3] at hc
        rcases hc with hc | hc | hc
        · exact .inl (List.take_subset _ _ hc)
        · exact .inr hc
        · rcases ih _ c hc with h | h
          · exact .inl (List.drop_subset _ _ h)
          · exact .inr h

theorem groupDigits_ne_dot (n : Nat) :
    ∀ c ∈ groupDigits (natDigits n), (c != '.') = true := by
  intro c hc
  unfold groupDigits at hc
  rw [List.mem_reverse] at hc
  rcases group3Aux_mem _ _ c hc with h | h
  · rw [List.mem_reverse] at h
    exact natDigits_ne_dot n c h
  · subst h; decide

theorem dropWhile_eq_nil_of_all (p : Char → Bool) (l : List Char)
    (h : ∀ c ∈ l, p c = true) : l.dropWhile p = [] := by
  induction l with
  | nil => rfl
  | cons x xs ih =>
      rw [List.dropWhile_cons_of_pos (h x (by simp))]
      exact ih (fun c hc => h c (by simp [hc]))

theorem dropWhile_length_le (p : Char → Bool) (l : List Char) :
    (l.dropWhile p).length ≤ l.length := by
  induction l with
  | nil => simp
  | cons x xs ih =>
      rw [List.dropWhile_cons]
      by_cases h : p x = true
      · rw [if_pos h]; exact Nat.le_trans ih (Nat.le_succ _)
      · rw [if_neg h]

theorem trimTrailingZeros_length_le (l : List Char) :
    (trimTrailingZeros l).length ≤ l.length := by
  unfold trimTrailingZeros
  rw [List.length_reverse]
  calc (l.reverse.dropWhile fun c => c == '0').length
      ≤ l.reverse.length := dropWhile_length_le _ _
    _ = l.length := List.length_reverse l

theorem fracDigitCount_toFixed4 (raw decimals : Nat) :
    fracDigitCount (toFixed4 raw decimals) = 4 := by
  show ((natDigits (toFixed4Scaled raw decimals / 10 ^ 4) ++
      '.' :: frac4 (toFixed4Scaled raw decimals % 10 ^ 4)).dropWhile
        (fun c => c != '.')).length - 1 = 4
  rw [List.dropWhile_append_of_pos (natDigits_ne_dot _),
      List.dropWhile_cons_of_neg (by decide)]
  rfl

theorem fracDigitCount_toLocaleString6 (raw decimals : Nat) :
    fracDigitCount (toLocaleString6 raw decimals) ≤ 6 := by
  unfold toLocaleString6
  by_cases h : localeScaled raw decimals % 10 ^ 6 = 0
  · rw [if_pos h]
    show ((groupDigits (natDigits (localeScaled raw decimals / 10 ^ 6))).dropWhile
        (fun c => c != '.')).length - 1 ≤ 6
    rw [dropWhile_eq_nil_of_all _ _ (groupDigits_ne_dot _)]
    simp
  · rw [if_neg h]
    show ((groupDigits (natDigits (localeScaled raw decimals / 10 ^ 6)) ++
        '.' :: trimTrailingZeros (frac6 (localeScaled raw decimals % 10 ^ 6))).dropWhile
          (fun c => c != '.')).length - 1 ≤ 6
    rw [List.dropWhile_append_of_pos (groupDigits_ne_dot _),
        List.dropWhile_cons_of_neg (by decide)]
    have h1 := trimTrailingZeros_length_le (frac6 (localeScaled raw decimals % 10 ^ 6))
    have h2 : (frac6 (localeScaled raw decimals % 10 ^ 6)).length = 6 := rfl
    simp only [List.length_cons]
    omega

/-- C8: `balanceDisplay` over the exact value `raw/10^decimals` (token
metadata loaded): value 0 displays "0.00"; a positive value below 0.0001
displays "< 0.0001"; a value in [0.0001, 1) displays `toFixed(4)`, a string
with exactly 4 fraction digits; a value ≥ 1 displays the en-US locale
format, which carries at most 6 fraction digits. The value comparisons are
the integer forms of `= 0`, `< 0.0001` and `< 1`. -/
theorem balanceDisplay_policy (raw decimals : Nat) :
    (raw = 0 → balanceDisplay true raw decimals = "0.00") ∧
    (0 < raw → raw * 10 ^ 4 < 10 ^ decimals →
      balanceDisplay true raw decimals = "< 0.0001") ∧
    (10 ^ decimals ≤ raw * 10 ^ 4 → raw < 10 ^ decimals →
      balanceDisplay true raw decimals = toFixed4 raw decimals ∧
      fracDigitCount (balanceDisplay true raw decimals) = 4) ∧
    (10 ^ decimals ≤ raw →
      balanceDisplay true raw decimals = toLocaleString6 raw decimals ∧
      fracDigitCount (balanceDisplay true raw decimals) ≤ 6) := by
  have hpos : 0 < 10 ^ decimals := pow_pos (by norm_num) decimals
  have e4 : (10 : Nat) ^ 4 = 10000 := by norm_num
  refine ⟨?_, ?_, ?_, ?_⟩
  · intro h
    simp [balanceDisplay, h]
  · intro h1 h2
    rw [e4] at h2
    have hz : ¬ raw = 0 := by omega
    simp [balanceDisplay, hz, h2]
  · intro h1 h2
    rw [e4] at h1
    have hz : ¬ raw = 0 := by omega
    have hnl : ¬ raw * 10000 < 10 ^ decimals := by omega
    constructor
    · simp [balanceDisplay, hz, hnl, h2]
    · simp [balanceDisplay, hz, hnl, h2, fracDigitCount_toFixed4]
  · intro h1
    have hz : ¬ raw = 0 := by omega
    have hnl : ¬ raw * 10000 < 10 ^ decimals := by omega
    have hnl1 : ¬ raw < 10 ^ decimals := by omega
    constructor
    · simp [balanceDisplay, hz, hnl, hnl1]
    · simp [balanceDisplay, hz, hnl, hnl1, fracDigitCount_toLocaleString6]

theorem balanceDisplay_policy_witness :
    balanceDisplay true 0 6 = "0.00" ∧
    balanceDisplay true 50 6 = "< 0.0001" ∧
    fracDigitCount (balanceDisplay true 500000 6) = 4 ∧
    fracDigitCount (balanceDisplay true 1234500000 6) ≤ 6 :=
  ⟨(balanceDisplay_policy 0 6).1 rfl,
   (balanceDisplay_policy 50 6).2.1 (by norm_num) (by norm_num),
   ((balanceDisplay_policy 500000 6).2.2.1 (by norm_num) (by norm_num)).2,
   ((balanceDisplay_policy 1234500000 6).2.2.2 (by norm_num)).2⟩

end Web3
